import Mathlib

/-!
Shallow embedding of the azure_table_utils repository
(src/azure_table_utils/main.py and src/azure_tables_utils/utils.py).

Python runtime values are modelled by the inductive `PyVal`; a Python dict
is modelled as an insertion-ordered association list, which matches the
behaviour of dict.pop and item assignment used by the source.  Machine
floats only ever flow through an f-string in the source, so their payload
is modelled as a rational and their printed form abstracted by `toString`;
no claim depends on the printed text of a float.
-/

namespace AzureTableUtils

/-- A Python runtime value as it can appear in the arguments of the
functions of the repository: None, bool, int, float, str, list, dict. -/
inductive PyVal where
  | pyNone : PyVal
  | pyBool (b : Bool) : PyVal
  | pyInt (n : Int) : PyVal
  | pyFloat (q : Rat) : PyVal
  | pyStr (s : String) : PyVal
  | pyList (items : List PyVal) : PyVal
  | pyDict (items : List (String × PyVal)) : PyVal

/-- Python truthiness: bool(x) for the values of `PyVal`. -/
def pyTruthy : PyVal → Bool
  | .pyNone => false
  | .pyBool b => b
  | .pyInt n => n != 0
  | .pyFloat q => q != 0
  | .pyStr s => s != ""
  | .pyList items => !items.isEmpty
  | .pyDict items => !items.isEmpty

/-- isinstance(v, str). -/
def pyIsStr : PyVal → Bool
  | .pyStr _ => true
  | _ => false

/-- isinstance(v, (int, float)).  In Python, bool is a subclass of int, so
a bool value satisfies this check as well. -/
def pyIsIntOrFloat : PyVal → Bool
  | .pyInt _ => true
  | .pyFloat _ => true
  | .pyBool _ => true
  | _ => false

/-- isinstance(v, bool). -/
def pyIsBool : PyVal → Bool
  | .pyBool _ => true
  | _ => false

/-- The text produced by a Python f-string for a value, f-string of v.
str(True) is the capitalized "True", str(None) is "None".  The printed
form of a float is abstracted by toString of its rational payload. -/
def pyFormat : PyVal → String
  | .pyNone => "None"
  | .pyBool b => if b then "True" else "False"
  | .pyInt n => toString n
  | .pyFloat q => toString q
  | .pyStr s => s
  | .pyList _ => "[abstracted]"
  | .pyDict _ => "[abstracted]"

/-- The single-quote character, written by code point to keep the source
free of quote literals. -/
def squote : String := String.singleton (Char.ofNat 39)

end AzureTableUtils

namespace AzureTableUtils

/-! ### QueryBuilder (src/azure_table_utils/main.py, class QueryBuilder)

The builder object holds a single string attribute; each method appends to
it and returns self, so the builder state is modelled by the string and
each method by a function String to String. -/

/-- Operator.GREATERTHANOREQUAL from the Operator class of the source. -/
def Operator.GREATERTHANOREQUAL : String := "ge"

/-- Operator.EQUAL from the Operator class of the source. -/
def Operator.EQUAL : String := "eq"

/-- QueryBuilder.set_column: appends the column name and a space. -/
def set_column (q : String) (columne_name : String) : String :=
  q ++ columne_name ++ " "

/-- QueryBuilder.set_value: dispatches on isinstance in source order.
Because a Python bool satisfies isinstance(value, (int, float)), the
dedicated bool branch that lower-cases the value is unreachable; a value
that matches no branch is appended nowhere and the query is returned
unchanged. -/
def set_value (q : String) (value : PyVal) : String :=
  if pyIsStr value then q ++ squote ++ pyFormat value ++ squote ++ " "
  else if pyIsIntOrFloat value then q ++ pyFormat value ++ " "
  else if pyIsBool value then q ++ (pyFormat value).toLower ++ " "
  else q

/-- QueryBuilder.set_value_datetime: appends "datetime" ++ value ++ " ". -/
def set_value_datetime (q : String) (value : String) : String :=
  q ++ "datetime" ++ value ++ " "

/-- QueryBuilder.set_operator: appends the operator token and a space. -/
def set_operator (q : String) (operator : String) : String :=
  q ++ operator ++ " "

/-- QueryBuilder.get_query: returns the accumulated string. -/
def get_query (q : String) : String := q

end AzureTableUtils

namespace AzureTableUtils

/-! ### create_entity_batch (src/azure_tables_utils/utils.py, lines 68-85)

Each operation is the Python triple of the string "upsert", the entity,
and the dict mapping "mode" to the mode; the dict is modelled by the mode
string itself.  copy.deepcopy gives the sealed batch value semantics,
which the Lean lists have natively. -/

/-- The loop body of create_entity_batch: iterates entities with a running
count (enumerate starts at 1), sealing the accumulated temp batch when the
count reaches 100 or the running index reaches the total. -/
def batchGo {α : Type} (mode : String) (total : Nat) (idx count : Nat)
    (temp : List (String × α × String)) (batch : List (List (String × α × String))) :
    List α → List (List (String × α × String))
  | [] => batch
  | item :: rest =>
    let temp2 := temp ++ [("upsert", item, mode)]
    let count2 := count + 1
    if count2 ≥ 100 || total == idx then
      batchGo mode total (idx + 1) 0 [] (batch ++ [temp2]) rest
    else
      batchGo mode total (idx + 1) count2 temp2 batch rest

/-- create_entity_batch from utils.py. -/
def create_entity_batch {α : Type} (mode : String) (entity : List α) :
    List (List (String × α × String)) :=
  batchGo mode entity.length 1 0 [] [] entity

/-- Reference chunker: successive groups of 100, used only to state and
prove properties of create_entity_batch. -/
def toBatches {β : Type} (l : List β) : List (List β) :=
  match l with
  | [] => []
  | x :: xs => ((x :: xs).take 100) :: toBatches ((x :: xs).drop 100)
termination_by l.length
decreasing_by simp [List.length_drop]; omega

end AzureTableUtils

namespace AzureTableUtils

/-! ### Exceptions

Only the exception classes the embedded code distinguishes are modelled.
In the azure SDK class hierarchy, ResourceExistsError is a subclass of
HttpResponseError, while ServiceRequestError is a separate branch; an
except clause catches every subclass of the named class.  The Python
idiom type e applied to a new message keeps the dynamic class and
replaces the message. -/

/-- The dynamic class of a raised exception. -/
inductive ExcType where
  | valueError : ExcType
  | resourceExists : ExcType
  | httpResponse : ExcType
  | serviceRequest : ExcType
  | otherExc : ExcType
deriving DecidableEq

/-- A raised Python exception: dynamic class plus message. -/
structure PyExc where
  ty : ExcType
  msg : String
deriving DecidableEq

/-- isinstance(e, HttpResponseError): ResourceExistsError is a subclass. -/
def isHttpResponseError : ExcType → Bool
  | .httpResponse => true
  | .resourceExists => true
  | _ => false

/-- isinstance(e, ServiceRequestError). -/
def isServiceRequestError : ExcType → Bool
  | .serviceRequest => true
  | _ => false

/-- isinstance(e, ResourceExistsError). -/
def isResourceExistsError : ExcType → Bool
  | .resourceExists => true
  | _ => false

end AzureTableUtils

namespace AzureTableUtils

/-! ### ensure_non_empty_string (src/azure_tables_utils/utils.py, lines 31-65)

The wrapper receives the positional args and keyword args of the call and, for
each declared parameter name, resolves a value: from kwargs when passed by
name, otherwise from args at the position the name occupies in
method dot co_varnames after dropping self, with None when the position is
beyond the supplied args; an absent name raises ValueError.  The resolved
value must be a truthy str. -/

/-- Resolve the value of one parameter as the wrapper does, or fail with
the ValueError raised when the name is absent from the varnames. -/
def lookupArg (varnames : List String) (parameter : String)
    (args : List PyVal) (kwargs : List (String × PyVal)) : Except PyExc PyVal :=
  match kwargs.lookup parameter with
  | some v => .ok v
  | none =>
    match varnames.indexOf? parameter with
    | some idx => .ok (args.getD idx .pyNone)
    | none => .error ⟨.valueError,
        "Parameter \"" ++ parameter ++ "\" not found in method arguments."⟩

/-- One iteration of the loop in the wrapper of ensure_non_empty_string for a
single checked parameter: none means the check passed and the wrapped
method body would run. -/
def ensure_non_empty_string_check (varnames : List String) (parameter : String)
    (args : List PyVal) (kwargs : List (String × PyVal)) : Option PyExc :=
  match lookupArg varnames parameter args kwargs with
  | .error e => some e
  | .ok value =>
    if !pyTruthy value || !pyIsStr value then
      some ⟨.valueError, "\"" ++ parameter ++ "\" must be a non-empty string."⟩
    else none

/-- co_varnames of the undecorated create_table method with self dropped:
its parameter table_name followed by its local e.  ensure_non_empty_string
is the decorator listed closest to create_table, so it wraps the method
itself and inspects this list. -/
def create_table_varnames : List String := ["table_name", "e"]

/-- co_varnames of the undecorated delete_entity method with self dropped:
its parameters followed by its locals. -/
def delete_entity_varnames : List String :=
  ["table_name", "partition_key", "row_key", "tables", "table_client", "e"]

/-- co_varnames of the wrapper function that ensure_attributes builds,
with self dropped: the wrapper is declared as wrapper of self, star args,
double-star kwargs, with loop variable attribute as its only local.
functools.wraps copies the name and docstring of the wrapped method but
not its code object, so on delete_entity and select_entity, where
ensure_non_empty_string is the outer decorator and wraps this wrapper,
this is the varname list it inspects. -/
def ensure_attributes_wrapper_varnames : List String := ["args", "kwargs", "attribute"]

end AzureTableUtils

namespace AzureTableUtils

/-! ### Entity validation and field-name normalization
(src/azure_table_utils/main.py, update_create_entity, lines 292-305)

A Python dict is modelled as an insertion-ordered association list.
item.pop key removes the entry and returns its value; item assignment at
an existing key replaces the value in place, at a fresh key appends the
entry at the end. -/

/-- dict.pop: the value at the key (pyNone when absent, which cannot occur
for the snapshot keys the source pops) and the remaining dict. -/
def dictPop (d : List (String × PyVal)) (k : String) : PyVal × List (String × PyVal) :=
  match d with
  | [] => (.pyNone, [])
  | (k2, v) :: rest =>
    if k2 = k then (v, rest)
    else
      let p := dictPop rest k
      (p.1, (k2, v) :: p.2)

/-- dict item assignment: replace in place when the key exists, otherwise
append at the end. -/
def dictSet (d : List (String × PyVal)) (k : String) (v : PyVal) :
    List (String × PyVal) :=
  match d with
  | [] => [(k, v)]
  | (k2, v2) :: rest =>
    if k2 = k then (k2, v) :: rest
    else (k2, v2) :: dictSet rest k v

/-- One character of re.sub with the pattern class excluding a-z and A-z:
the union of those ranges is the contiguous code points 65 to 122, so the
characters between the upper and lower case letters, code points 91 to 96
(bracket, backslash, caret, underscore and friends), are kept, and every
character outside 65 to 122 is replaced by the underscore. -/
def normalizeChar (c : Char) : Char :=
  if 65 ≤ c.toNat ∧ c.toNat ≤ 122 then c else Char.ofNat 95

/-- re.sub of the class excluding a-z and A-z with underscore over a key. -/
def normalizeKey (s : String) : String :=
  ⟨s.data.map normalizeChar⟩

/-- The key-normalization loop the source runs on one entity: snapshot the
keys, then pop each and re-insert under its normalized name. -/
def normalizeEntity (d : List (String × PyVal)) : List (String × PyVal) :=
  (d.map Prod.fst).foldl
    (fun acc key =>
      let p := dictPop acc key
      dictSet p.2 (normalizeKey key) p.1)
    d

/-- The per-item validation checks of update_create_entity, in source
order: the item must be a truthy dict, must contain the keys PartitionKey
and RowKey, and its PartitionKey value must satisfy isinstance str.  The
result is the exception raised, none when the item passes. -/
def entityCheck : PyVal → Option PyExc
  | .pyDict d =>
    if d.isEmpty then
      some ⟨.valueError, "Entity must be a non-empty list of non-empties dictionaries."⟩
    else if !((d.map Prod.fst).contains "PartitionKey")
        || !((d.map Prod.fst).contains "RowKey") then
      some ⟨.valueError, "Each dictionary must have the keys \"PartitionKey\" and \"RowKey\"."⟩
    else if !pyIsStr ((d.lookup "PartitionKey").getD .pyNone) then
      some ⟨.valueError, "The value for the key \"PartitionKey\" must be a non-empty string."⟩
    else none
  | _ => some ⟨.valueError, "Entity must be a non-empty list of non-empties dictionaries."⟩

/-- Normalization of one list item: an item that passed the checks is a
dict and gets its keys normalized. -/
def normalizeItem : PyVal → PyVal
  | .pyDict d => .pyDict (normalizeEntity d)
  | v => v

/-- The validation loop of update_create_entity with the caller-visible
list state made explicit: items are validated and normalized one at a
time, in order, and on the first failing item the loop stops, returning
the list as it stands at that moment (already-processed prefix normalized
in place, failing item and successors untouched) together with the raised
exception. -/
def validateNormalizeGo (done : List PyVal) : List PyVal → List PyVal × Option PyExc
  | [] => (done, none)
  | item :: rest =>
    match entityCheck item with
    | some e => (done ++ item :: rest, some e)
    | none => validateNormalizeGo (done ++ [normalizeItem item]) rest

/-- The validation phase of update_create_entity on a list argument: the
leading check rejects an empty list, then each item is validated and
normalized in order.  (The isinstance list check of the source is carried
by the argument type.)  Returns the caller-visible list state and the
raised exception, none when validation succeeds. -/
def update_create_entity_validate (entity : List PyVal) : List PyVal × Option PyExc :=
  match entity with
  | [] => (entity,
      some ⟨.valueError, "Entity must be a non-empty list of non-empties dictionaries."⟩)
  | _ => validateNormalizeGo [] entity

end AzureTableUtils

namespace AzureTableUtils

/-! ### create_table and the table-existence step of update_create_entity
(src/azure_table_utils/main.py, lines 166-203 and 307-311) -/

/-- One character of the class of letters, A-Z or a-z. -/
def isAsciiLetter (c : Char) : Bool :=
  (65 ≤ c.toNat && c.toNat ≤ 90) || (97 ≤ c.toNat && c.toNat ≤ 122)

/-- One character of the class of letters and digits. -/
def isAsciiAlnum (c : Char) : Bool :=
  isAsciiLetter c || (48 ≤ c.toNat && c.toNat ≤ 57)

/-- The core shape demanded by the pattern in the source: a letter followed by
2 to 62 letters or digits, spanning the whole string. -/
def tableNameCore (s : String) : Bool :=
  match s.data with
  | [] => false
  | c :: rest =>
    isAsciiLetter c && rest.all isAsciiAlnum && decide (2 ≤ rest.length) &&
      decide (rest.length ≤ 62)

/-- re.match of the anchored pattern of the source on a string.  In Python the
dollar anchor matches at the end of the string or just before a single
newline at the end of the string, so a candidate is accepted when it has
the core shape, or when it ends in one newline and the rest has the core
shape. -/
def reMatchTableName (s : String) : Bool :=
  tableNameCore s ||
    (match s.data.getLast? with
     | some c => c = Char.ofNat 10 && tableNameCore ⟨s.data.dropLast⟩
     | none => false)

/-- create_table: the ensure_non_empty_string decorator rejects an empty
table_name, the method rejects a name failing the pattern, and the call
into the service either succeeds, gets re-raised under the same dynamic
class with a new message when it is an HttpResponseError or a
ServiceRequestError, or propagates unchanged.  The behaviour of the
remote call is the svc argument.  The ensure_attributes decorator is
satisfied: the client connects in its constructor. -/
def create_table (table_name : String) (svc : Except PyExc Unit) : Except PyExc Bool :=
  if table_name = "" then
    .error ⟨.valueError, "\"table_name\" must be a non-empty string."⟩
  else if !reMatchTableName table_name then
    .error ⟨.valueError,
      "Table name must be alphanumeric, cannot begin with a number and must be between 3-63 characters long."⟩
  else
    match svc with
    | .ok _ => .ok true
    | .error e =>
      if isHttpResponseError e.ty || isServiceRequestError e.ty then
        .error ⟨e.ty, "Failed to create table \"" ++ table_name ++ "\": " ++ e.msg⟩
      else .error e

/-- The table-creation step of update_create_entity: call create_table
and swallow exactly a ResourceExistsError, continuing to batch
submission; ok means the step continued. -/
def ensure_table_step (table_name : String) (svc : Except PyExc Unit) : Except PyExc Unit :=
  match create_table table_name svc with
  | .ok _ => .ok ()
  | .error e => if isResourceExistsError e.ty then .ok () else .error e

end AzureTableUtils

namespace AzureTableUtils

/-! ### Call sequences against a QueryBuilder

Used to state that tokens are emitted in call order: the chained
calls are a list of `BuilderCall`s replayed from the empty accumulated
query. -/

/-- One chained call on a QueryBuilder. -/
inductive BuilderCall where
  | col (s : String) : BuilderCall
  | oper (s : String) : BuilderCall
  | val (v : PyVal) : BuilderCall
  | dt (s : String) : BuilderCall

/-- Dispatch one call to the corresponding method. -/
def applyCall (q : String) : BuilderCall → String
  | .col s => set_column q s
  | .oper s => set_operator q s
  | .val v => set_value q v
  | .dt s => set_value_datetime q s

/-- Replay a chain of calls from a given accumulated query. -/
def runCalls (q : String) (cs : List BuilderCall) : String :=
  cs.foldl applyCall q

/-- The text a single call contributes: what it appends to an empty query. -/
def emit (c : BuilderCall) : String := applyCall "" c

/-- Observation used to compare entity dict states: the ordered field
names of a dict item. -/
def itemKeys : PyVal → List String
  | .pyDict d => d.map Prod.fst
  | _ => []

end AzureTableUtils

namespace AzureTableUtils

/-! ### Lemmas about the reference chunker and the batch loop -/

theorem toBatches_nil {β : Type} : toBatches ([] : List β) = [] := by
  simp [toBatches]

theorem toBatches_short {β : Type} (l : List β) (h0 : l ≠ []) (h1 : l.length ≤ 100) :
    toBatches l = [l] := by
  match l, h0 with
  | x :: xs, _ =>
    rw [toBatches, List.take_of_length_le h1, List.drop_eq_nil_of_le h1, toBatches_nil]

theorem toBatches_append100 {β : Type} (a b : List β) (ha : a.length = 100) :
    toBatches (a ++ b) = a :: toBatches b := by
  match a, ha with
  | x :: a2, ha =>
    rw [List.cons_append, toBatches, ← List.cons_append, ← ha, List.take_left,
      List.drop_left]

theorem toBatches_ne_nil {β : Type} (l : List β) (h : l ≠ []) : toBatches l ≠ [] := by
  match l, h with
  | x :: xs, _ => rw [toBatches]; exact List.cons_ne_nil _ _

theorem toBatches_flatten {β : Type} (l : List β) : (toBatches l).flatten = l := by
  induction l using toBatches.induct with
  | case1 => rw [toBatches_nil]; rfl
  | case2 item rest ih =>
    rw [toBatches, List.flatten_cons, ih, List.take_append_drop]

theorem toBatches_length {β : Type} (l : List β) :
    (toBatches l).length = (l.length + 99) / 100 := by
  induction l using toBatches.induct with
  | case1 => rw [toBatches_nil]; simp
  | case2 item rest ih =>
    rw [toBatches, List.length_cons, ih, List.length_drop]
    simp only [List.length_cons]
    omega

theorem toBatches_dropLast {β : Type} (l : List β) :
    ∀ b ∈ (toBatches l).dropLast, b.length = 100 := by
  induction l using toBatches.induct with
  | case1 => rw [toBatches_nil]; intro b hb; simp at hb
  | case2 item rest ih =>
    rw [toBatches]
    rcases le_or_lt (item :: rest).length 100 with hle | hgt
    · rw [List.drop_eq_nil_of_le hle, toBatches_nil]
      intro b hb; simp at hb
    · have hne : (item :: rest).drop 100 ≠ [] := by
        intro hcontra
        have := congrArg List.length hcontra
        simp only [List.length_drop, List.length_nil, List.length_cons] at this
        simp only [List.length_cons] at hgt
        omega
      rw [List.dropLast_cons_of_ne_nil (toBatches_ne_nil _ hne)]
      intro b hb
      rcases List.mem_cons.mp hb with hb | hb
      · subst hb
        rw [List.length_take]
        simp only [List.length_cons] at hgt ⊢
        omega
      · exact ih b hb

theorem toBatches_getLast {β : Type} (l : List β) (h : l ≠ []) :
    ∀ b, (toBatches l).getLast? = some b →
      b.length = if l.length % 100 = 0 then 100 else l.length % 100 := by
  induction l using toBatches.induct with
  | case1 => exact absurd rfl h
  | case2 item rest ih =>
    rw [toBatches]
    rcases le_or_lt (item :: rest).length 100 with hle | hgt
    · rw [List.drop_eq_nil_of_le hle, toBatches_nil]
      intro b hb
      simp only [List.getLast?_singleton, Option.some.injEq] at hb
      subst hb
      rw [List.take_of_length_le hle]
      simp only [List.length_cons] at hle ⊢
      split <;> omega
    · have hne : (item :: rest).drop 100 ≠ [] := by
        intro hcontra
        have := congrArg List.length hcontra
        simp only [List.length_drop, List.length_nil, List.length_cons] at this
        simp only [List.length_cons] at hgt
        omega
      intro b hb
      have hcons : ∀ x xs, toBatches ((item :: rest).drop 100) = x :: xs →
          (List.take 100 (item :: rest) :: toBatches ((item :: rest).drop 100)).getLast?
            = (toBatches ((item :: rest).drop 100)).getLast? := by
        intro x xs hx; rw [hx, List.getLast?_cons_cons]
      rcases hx : toBatches ((item :: rest).drop 100) with _ | ⟨x, xs⟩
      · exact absurd hx (toBatches_ne_nil _ hne)
      · rw [hcons x xs hx] at hb
        have hthis := ih hne b hb
        rw [List.length_drop] at hthis
        simp only [List.length_cons] at hgt hthis ⊢
        rcases Nat.lt_or_ge (rest.length + 1) 100 with hc | hc
        · omega
        · have h100 : (rest.length + 1) % 100 = (rest.length + 1 - 100) % 100 := by
            omega
          rw [h100]
          exact hthis

theorem batchGo_spec {α : Type} (mode : String) (total : Nat) :
    ∀ (l : List α) (idx count : Nat) (temp : List (String × α × String))
      (batch : List (List (String × α × String))),
      l ≠ [] → total + 1 = idx + l.length → count = temp.length → count ≤ 99 →
      batchGo mode total idx count temp batch l
        = batch ++ toBatches (temp ++ l.map (fun item => ("upsert", item, mode))) := by
  intro l
  induction l with
  | nil => intro idx count temp batch hne; exact absurd rfl hne
  | cons item rest ih =>
    intro idx count temp batch _ htotal hcount hle
    simp only [batchGo]
    have htot2 : total = idx + rest.length := by
      simp only [List.length_cons] at htotal; omega
    by_cases hrest : rest = []
    · subst hrest
      have hcond : (decide (count + 1 ≥ 100) || (total == idx)) = true := by
        simp only [htot2, List.length_nil, Nat.add_zero, beq_self_eq_true, Bool.or_true]
      rw [hcond]
      simp only [if_true, batchGo, List.map_cons, List.map_nil]
      rw [toBatches_short (temp ++ [("upsert", item, mode)])
        (by simp) (by simp only [List.length_append, List.length_cons, List.length_nil]; omega)]
    · have hbeq : (total == idx) = false := by
        have : rest.length ≠ 0 := by
          intro h0; exact hrest (List.length_eq_zero.mp h0)
        simp only [beq_eq_false_iff_ne, ne_eq]
        omega
      by_cases hfull : count + 1 ≥ 100
      · have hc99 : count = 99 := by omega
        have hcond : (decide (count + 1 ≥ 100) || (total == idx)) = true := by
          simp [hfull]
        rw [hcond]
        simp only [if_true]
        rw [ih (idx + 1) 0 [] (batch ++ [temp ++ [("upsert", item, mode)]]) hrest
          (by simp only [List.length_cons] at htotal ⊢; omega) rfl (by omega)]
        rw [List.nil_append, List.map_cons]
        have hassoc : temp ++ ("upsert", item, mode) :: rest.map (fun it => ("upsert", it, mode))
            = (temp ++ [("upsert", item, mode)]) ++ rest.map (fun it => ("upsert", it, mode)) := by
          simp
        rw [hassoc, toBatches_append100 _ _
          (by simp only [List.length_append, List.length_cons, List.length_nil]; omega)]
        simp
      · have hcond : (decide (count + 1 ≥ 100) || (total == idx)) = false := by
          simp [hfull, hbeq]
        rw [hcond]
        simp only [if_false, Bool.false_eq_true]
        rw [ih (idx + 1) (count + 1) (temp ++ [("upsert", item, mode)]) batch hrest
          (by simp only [List.length_cons] at htotal ⊢; omega)
          (by simp only [List.length_append, List.length_cons, List.length_nil]; omega)
          (by omega)]
        simp

theorem create_entity_batch_eq {α : Type} (mode : String) (l : List α) (h : l ≠ []) :
    create_entity_batch mode l
      = toBatches (l.map (fun item => ("upsert", item, mode))) := by
  unfold create_entity_batch
  rw [batchGo_spec mode l.length l 1 0 [] [] h (by omega) rfl (by omega)]
  simp

end AzureTableUtils

namespace AzureTableUtils

/-- C1: for every non-empty entity list and mode, create_entity_batch
returns ceil of length over 100 batches; every batch except possibly the
last has exactly 100 operations; the last has length mod 100 operations
(100 when the length is a multiple of 100); each operation is the upsert
triple carrying the mode; concatenating the batches in order reproduces
the entities of the input list in order; and the empty list yields zero
batches. -/
theorem claim_C1_create_entity_batch {α : Type} (mode : String) (l : List α)
    (h : l ≠ []) :
    (create_entity_batch mode l).length = (l.length + 99) / 100 ∧
    (∀ b ∈ (create_entity_batch mode l).dropLast, b.length = 100) ∧
    (∀ b, (create_entity_batch mode l).getLast? = some b →
      b.length = if l.length % 100 = 0 then 100 else l.length % 100) ∧
    (∀ b ∈ create_entity_batch mode l, ∀ o ∈ b,
      o.1 = "upsert" ∧ o.2.2 = mode) ∧
    ((create_entity_batch mode l).flatten.map (fun o => o.2.1)) = l ∧
    create_entity_batch mode ([] : List α) = [] := by
  rw [create_entity_batch_eq mode l h]
  refine ⟨?_, ?_, ?_, ?_, ?_, ?_⟩
  · rw [toBatches_length, List.length_map]
  · exact toBatches_dropLast _
  · intro b hb
    have hlast := toBatches_getLast _ (by simpa using h) b hb
    rwa [List.length_map] at hlast
  · intro b hb o ho
    have homem : o ∈ (toBatches (l.map fun item => ("upsert", item, mode))).flatten :=
      List.mem_flatten.mpr ⟨b, hb, ho⟩
    rw [toBatches_flatten] at homem
    rcases List.mem_map.mp homem with ⟨a, _, rfl⟩
    exact ⟨rfl, rfl⟩
  · rw [toBatches_flatten, List.map_map]
    have hid : ((fun o : String × α × String => o.2.1) ∘ fun item : α => ("upsert", item, mode))
        = fun a : α => a := rfl
    rw [hid]
    exact List.map_id l
  · rfl

/-- Witness for C1: 105 entities give two batches. -/
theorem claim_C1_create_entity_batch_witness :
    (create_entity_batch "merge" (List.range 105)).length = 2 :=
  (claim_C1_create_entity_batch "merge" (List.range 105) (by decide)).1

end AzureTableUtils

namespace AzureTableUtils

/-- C2 (divergence from the claim): set_value on a boolean appends the
capitalized Python text "True " or "False " through the int-or-float
branch, because a Python bool is an int; it appends neither the
lower-cased "true "/"false " the claim states nor the numeric "1 "/"0 ". -/
theorem claim_C2_set_value_bool :
    get_query (set_value "" (.pyBool true)) = "True " ∧
    get_query (set_value "" (.pyBool true)) ≠ "true " ∧
    get_query (set_value "" (.pyBool true)) ≠ "1 " ∧
    get_query (set_value "" (.pyBool false)) = "False " ∧
    get_query (set_value "" (.pyBool false)) ≠ "false " ∧
    get_query (set_value "" (.pyBool false)) ≠ "0 " := by
  exact ⟨rfl, by decide, by decide, rfl, by decide, by decide⟩

/-- C3 (divergence from the claim): the normalization regex class spans
the contiguous code points 65 to 122, so the bracket character (code 91),
which is neither a letter nor the underscore, survives normalization
unchanged, while characters outside that span, such as the hyphen, are
replaced by the underscore. -/
theorem claim_C3_normalize_keys :
    normalizeKey "a[b" = "a[b" ∧
    normalizeChar (Char.ofNat 91) = Char.ofNat 91 ∧
    isAsciiLetter (Char.ofNat 91) = false ∧
    Char.ofNat 91 ≠ Char.ofNat 95 ∧
    normalizeEntity [("PartitionKey", .pyStr "p"), ("RowKey", .pyStr "r"), ("a[b", .pyInt 1)]
      = [("PartitionKey", .pyStr "p"), ("RowKey", .pyStr "r"), ("a[b", .pyInt 1)] ∧
    normalizeKey "a-b" = "a_b" := by
  exact ⟨by decide, by decide, rfl, by decide, rfl, by decide⟩

/-- C4 (divergence from the claim): when ensure_non_empty_string directly
wraps the method (create_table), the check accepts a valid positional
non-empty string and rejects the empty string, None and a non-string; but
when it wraps the wrapper built by ensure_attributes (delete_entity,
select_entity), a positional call raises ValueError even for a valid
non-empty table name, because the inspected varnames are those of the
wrapper; only the keyword path still works there. -/
theorem claim_C4_positional_lookup_through_wrapper :
    ensure_non_empty_string_check ensure_attributes_wrapper_varnames "table_name"
      [.pyStr "MyTable", .pyStr "P", .pyStr "R"] []
      = some ⟨.valueError, "Parameter \"table_name\" not found in method arguments."⟩ ∧
    ensure_non_empty_string_check create_table_varnames "table_name"
      [.pyStr "MyTable"] [] = none ∧
    ensure_non_empty_string_check create_table_varnames "table_name" [.pyStr ""] []
      = some ⟨.valueError, "\"table_name\" must be a non-empty string."⟩ ∧
    ensure_non_empty_string_check create_table_varnames "table_name" [.pyNone] []
      = some ⟨.valueError, "\"table_name\" must be a non-empty string."⟩ ∧
    ensure_non_empty_string_check create_table_varnames "table_name" [.pyInt 3] []
      = some ⟨.valueError, "\"table_name\" must be a non-empty string."⟩ ∧
    ensure_non_empty_string_check ensure_attributes_wrapper_varnames "table_name"
      [] [("table_name", .pyStr "MyTable")] = none := by
  exact ⟨by decide, rfl, by decide, by decide, by decide, rfl⟩

/-- C5 (divergence from the claim): the PartitionKey check is only an
isinstance str test, so an entity whose PartitionKey is the empty string
passes validation with no error raised, although the empty string is
falsy; a non-string PartitionKey is rejected as the claim states. -/
theorem claim_C5_partition_key_empty_accepted :
    (update_create_entity_validate
      [.pyDict [("PartitionKey", .pyStr ""), ("RowKey", .pyStr "r")]]).2 = none ∧
    pyTruthy (.pyStr "") = false ∧
    (update_create_entity_validate
      [.pyDict [("PartitionKey", .pyInt 1), ("RowKey", .pyStr "r")]]).2
      = some ⟨.valueError,
          "The value for the key \"PartitionKey\" must be a non-empty string."⟩ := by
  exact ⟨rfl, by decide, by decide⟩

/-- C8 (divergence from the claim): create_table accepts "Abc123" and
rejects "1abc" and "ab" as the claim states, but the dollar anchor of the
Python pattern also matches just before one trailing newline, so the
4-character name with a trailing newline, which contains a character that
is not alphanumeric, and a 64-character name ending in a newline are both
accepted with no ValueError. -/
theorem claim_C8_table_name_trailing_newline :
    create_table "Abc123" (.ok ()) = .ok true ∧
    create_table "1abc" (.ok ()) = .error ⟨.valueError,
      "Table name must be alphanumeric, cannot begin with a number and must be between 3-63 characters long."⟩ ∧
    create_table "ab" (.ok ()) = .error ⟨.valueError,
      "Table name must be alphanumeric, cannot begin with a number and must be between 3-63 characters long."⟩ ∧
    create_table "Abc\n" (.ok ()) = .ok true ∧
    isAsciiAlnum (Char.ofNat 10) = false ∧
    "Abc\n".length = 4 ∧
    create_table
      (⟨Char.ofNat 65 :: (List.replicate 62 (Char.ofNat 97) ++ [Char.ofNat 10])⟩ : String)
      (.ok ()) = .ok true ∧
    (⟨Char.ofNat 65 :: (List.replicate 62 (Char.ofNat 97) ++ [Char.ofNat 10])⟩ : String).length
      = 64 := by
  exact ⟨rfl, rfl, rfl, rfl, rfl, rfl, rfl, by decide⟩

/-- C10: a value that is neither a string nor an int, float or bool falls
through every isinstance branch of set_value: nothing is appended, no
error is raised, and the accumulated query is returned unchanged. -/
theorem claim_C10_set_value_silent_drop (q : String) (v : PyVal)
    (h1 : pyIsStr v = false) (h2 : pyIsIntOrFloat v = false)
    (h3 : pyIsBool v = false) :
    set_value q v = q ∧ get_query (set_value q v) = get_query q := by
  have hq : set_value q v = q := by simp [set_value, h1, h2, h3]
  exact ⟨hq, hq⟩

/-- Witness for C10 at None and at a list value. -/
theorem claim_C10_set_value_silent_drop_witness :
    (set_value "Age ge " .pyNone = "Age ge " ∧
      get_query (set_value "Age ge " .pyNone) = get_query "Age ge ") ∧
    (set_value "Age ge " (.pyList [.pyInt 1]) = "Age ge " ∧
      get_query (set_value "Age ge " (.pyList [.pyInt 1])) = get_query "Age ge ") :=
  ⟨claim_C10_set_value_silent_drop "Age ge " .pyNone rfl rfl rfl,
    claim_C10_set_value_silent_drop "Age ge " (.pyList [.pyInt 1]) rfl rfl rfl⟩

end AzureTableUtils

namespace AzureTableUtils

theorem reMatch_ne_empty (s : String) (h : reMatchTableName s = true) : s ≠ "" := by
  intro hcontra
  rw [hcontra] at h
  exact absurd h (by decide)

/-- C7: for a valid table name, the table-creation step of
update_create_entity continues exactly when the service call succeeded or
raised a ResourceExistsError — the re-wrap in create_table constructs a
new exception of the same dynamic class, so the swallow still fires — and
every other creation failure propagates with its class preserved. -/
theorem claim_C7_swallow_exactly_resource_exists (table_name : String)
    (svc : Except PyExc Unit) (h : reMatchTableName table_name = true) :
    (ensure_table_step table_name svc = .ok () ↔
      svc = .ok () ∨ ∃ e : PyExc, svc = .error e ∧ e.ty = .resourceExists) ∧
    (∀ e : PyExc, svc = .error e → e.ty ≠ .resourceExists →
      ∃ e2 : PyExc, ensure_table_step table_name svc = .error e2 ∧ e2.ty = e.ty) := by
  have hne : table_name ≠ "" := reMatch_ne_empty table_name h
  rcases svc with e | u
  · obtain ⟨ty, msg⟩ := e
    cases ty <;>
      simp [ensure_table_step, create_table, hne, h, isResourceExistsError,
        isHttpResponseError, isServiceRequestError]
  · cases u
    constructor
    · constructor
      · intro _; exact Or.inl rfl
      · intro _
        simp [ensure_table_step, create_table, hne, h]
    · intro e hcontra
      exact absurd hcontra (by simp)

/-- Witness for C7: a ResourceExistsError raised by the service while the
table name is valid is swallowed and the step continues. -/
theorem claim_C7_swallow_exactly_resource_exists_witness :
    ensure_table_step "Abc123" (.error ⟨.resourceExists, "Conflict"⟩) = .ok () :=
  (claim_C7_swallow_exactly_resource_exists "Abc123"
      (.error ⟨.resourceExists, "Conflict"⟩) (by decide)).1.mpr
    (Or.inr ⟨⟨.resourceExists, "Conflict"⟩, rfl, rfl⟩)

end AzureTableUtils

namespace AzureTableUtils

theorem string_join_cons (s : String) (l : List String) :
    String.join (s :: l) = s ++ String.join l := by
  apply String.ext
  simp

theorem applyCall_eq (q : String) (c : BuilderCall) : applyCall q c = q ++ emit c := by
  cases c with
  | col s =>
    simp [applyCall, emit, set_column, String.empty_append, String.append_assoc]
  | oper s =>
    simp [applyCall, emit, set_operator, String.empty_append, String.append_assoc]
  | dt s =>
    simp [applyCall, emit, set_value_datetime, String.empty_append, String.append_assoc]
  | val v =>
    cases v <;>
      simp [applyCall, emit, set_value, pyIsStr, pyIsIntOrFloat, pyIsBool,
        String.empty_append, String.append_empty, String.append_assoc]

theorem runCalls_eq (cs : List BuilderCall) :
    ∀ q, runCalls q cs = q ++ String.join (cs.map emit) := by
  induction cs with
  | nil =>
    intro q
    simp only [runCalls, List.foldl_nil, List.map_nil]
    rw [show String.join [] = "" from rfl, String.append_empty]
  | cons c cs ih =>
    intro q
    simp only [runCalls, List.foldl_cons, List.map_cons] at ih ⊢
    rw [ih (applyCall q c), applyCall_eq, string_join_cons, String.append_assoc]

/-- C9: each QueryBuilder method appends exactly its one token followed by
a single space and hands the builder back; replaying any chain of calls
yields the concatenation, in call order, of what each call emits, with no
structural validation; and the concrete chain column Age, operator ge,
value 21 yields exactly "Age ge 21 ". -/
theorem claim_C9_query_builder_token_order (q columne_name operator dtv : String)
    (cs : List BuilderCall) :
    set_column q columne_name = q ++ columne_name ++ " " ∧
    set_operator q operator = q ++ operator ++ " " ∧
    set_value_datetime q dtv = q ++ "datetime" ++ dtv ++ " " ∧
    (∀ s, set_value q (.pyStr s) = q ++ squote ++ s ++ squote ++ " ") ∧
    (∀ n : Int, set_value q (.pyInt n) = q ++ toString n ++ " ") ∧
    (∀ b, set_value q (.pyBool b) = q ++ (if b then "True" else "False") ++ " ") ∧
    (∀ c, applyCall q c = q ++ emit c) ∧
    get_query (runCalls q cs) = q ++ String.join (cs.map emit) ∧
    get_query (runCalls ""
      [.col "Age", .oper Operator.GREATERTHANOREQUAL, .val (.pyInt 21)]) = "Age ge 21 " := by
  refine ⟨rfl, rfl, rfl, fun s => rfl, fun n => rfl, fun b => rfl,
    applyCall_eq q, runCalls_eq cs q, by decide⟩

end AzureTableUtils

namespace AzureTableUtils

theorem validateNormalizeGo_error :
    ∀ (items done : List PyVal) (e : PyExc),
      (validateNormalizeGo done items).2 = some e →
      ∃ k, (validateNormalizeGo done items).1
          = done ++ ((items.take k).map normalizeItem ++ items.drop k) ∧
        (∀ i ∈ items.take k, entityCheck i = none) ∧
        (∀ i, (items.drop k).head? = some i → entityCheck i = some e) := by
  intro items
  induction items with
  | nil =>
    intro done e h
    simp [validateNormalizeGo] at h
  | cons item rest ih =>
    intro done e h
    rcases hc : entityCheck item with _ | e0
    · rw [validateNormalizeGo, hc] at h
      obtain ⟨k, h1, h2, h3⟩ := ih (done ++ [normalizeItem item]) e h
      refine ⟨k + 1, ?_, ?_, ?_⟩
      · rw [validateNormalizeGo, hc, h1, List.take_succ_cons, List.drop_succ_cons,
          List.map_cons]
        simp
      · intro i hi
        rw [List.take_succ_cons] at hi
        rcases List.mem_cons.mp hi with hi | hi
        · rw [hi]; exact hc
        · exact h2 i hi
      · intro i hi
        rw [List.drop_succ_cons] at hi
        exact h3 i hi
    · rw [validateNormalizeGo, hc] at h
      have he : e0 = e := Option.some.inj h
      refine ⟨0, ?_, ?_, ?_⟩
      · rw [validateNormalizeGo, hc, List.take_zero, List.drop_zero, List.map_nil,
          List.nil_append]
      · intro i hi; simp at hi
      · intro i hi
        rw [List.drop_zero] at hi
        have : i = item := by
          simp only [List.head?_cons, Option.some.injEq] at hi
          exact hi.symm
        rw [this, hc, he]

/-- C6 counterexample: a list whose first entity is valid and carries a
hyphenated field name, followed by an empty dict, raises the validation
error, yet at that moment the first caller-supplied dict has already been
normalized in place, so the list state differs from the input. -/
theorem claim_C6_counterexample :
    (update_create_entity_validate
      [.pyDict [("PartitionKey", .pyStr "p"), ("RowKey", .pyStr "r"), ("a-b", .pyInt 1)],
       .pyDict []]).2
      = some ⟨.valueError, "Entity must be a non-empty list of non-empties dictionaries."⟩ ∧
    (update_create_entity_validate
      [.pyDict [("PartitionKey", .pyStr "p"), ("RowKey", .pyStr "r"), ("a-b", .pyInt 1)],
       .pyDict []]).1
      ≠ [.pyDict [("PartitionKey", .pyStr "p"), ("RowKey", .pyStr "r"), ("a-b", .pyInt 1)],
         .pyDict []] := by
  constructor
  · rfl
  · intro hcontra
    exact absurd (congrArg (List.map itemKeys) hcontra) (by decide)

/-- C6 as amended: when the validation phase of update_create_entity
raises, no batch has been built or submitted, but the caller-supplied
entities strictly before the first failing item have already had their
field names normalized in place; the failing item and every later item
are untouched, and the raised error is the check result of the failing item. -/
theorem claim_C6_validation_mutation_boundary (items : List PyVal) (e : PyExc)
    (h : (update_create_entity_validate items).2 = some e) :
    ∃ k, (update_create_entity_validate items).1
        = (items.take k).map normalizeItem ++ items.drop k ∧
      (∀ i ∈ items.take k, entityCheck i = none) ∧
      (∀ i, (items.drop k).head? = some i → entityCheck i = some e) := by
  rcases items with _ | ⟨item, rest⟩
  · exact ⟨0, rfl, by intro i hi; simp at hi, by intro i hi; simp at hi⟩
  · rw [update_create_entity_validate] at h ⊢
    rotate_left
    · exact fun hcontra => List.noConfusion hcontra
    · exact fun hcontra => List.noConfusion hcontra
    obtain ⟨k, h1, h2, h3⟩ := validateNormalizeGo_error (item :: rest) [] e h
    rw [List.nil_append] at h1
    exact ⟨k, h1, h2, h3⟩

/-- Witness for the amended C6 at the counterexample input. -/
theorem claim_C6_validation_mutation_boundary_witness :
    ∃ k, (update_create_entity_validate
        [.pyDict [("PartitionKey", .pyStr "p"), ("RowKey", .pyStr "r"), ("a-b", .pyInt 1)],
         .pyDict []]).1
        = (([.pyDict [("PartitionKey", .pyStr "p"), ("RowKey", .pyStr "r"), ("a-b", .pyInt 1)],
            .pyDict ([] : List (String × PyVal))].take k).map normalizeItem
          ++ [.pyDict [("PartitionKey", .pyStr "p"), ("RowKey", .pyStr "r"), ("a-b", .pyInt 1)],
            .pyDict ([] : List (String × PyVal))].drop k) ∧
      (∀ i ∈ [.pyDict [("PartitionKey", .pyStr "p"), ("RowKey", .pyStr "r"), ("a-b", .pyInt 1)],
          .pyDict ([] : List (String × PyVal))].take k, entityCheck i = none) ∧
      (∀ i, ([.pyDict [("PartitionKey", .pyStr "p"), ("RowKey", .pyStr "r"), ("a-b", .pyInt 1)],
          .pyDict ([] : List (String × PyVal))].drop k).head? = some i →
        entityCheck i = some ⟨.valueError,
          "Entity must be a non-empty list of non-empties dictionaries."⟩) :=
  claim_C6_validation_mutation_boundary
    [.pyDict [("PartitionKey", .pyStr "p"), ("RowKey", .pyStr "r"), ("a-b", .pyInt 1)],
      .pyDict []]
    ⟨.valueError, "Entity must be a non-empty list of non-empties dictionaries."⟩ rfl

end AzureTableUtils
